import Mathlib

/-!
Shallow embedding of the interactive terminal pane from `rust-terminal`
(`src/main.rs`, `src/terminal.rs`).  Machine integers are modelled as `Nat`
with an explicit `% 65536` wherever the source performs wrapping `u16`
arithmetic or an `as u16` cast; `saturating_sub` is `Nat` subtraction.
Byte payloads handed to `Terminal::input` are recorded in an append-only log.
-/

namespace RustTerminal

/-- Modulus of the `u16` type used by the source for offsets and coordinates. -/
def U16 : Nat := 65536

/-! ## Grid cells and row reconstruction (`terminal.rs`, `Terminal::get_renderable_content`) -/

/-- One grid cell: its codepoint and the two flags the reconstruction loop
inspects (`WIDE_CHAR` and `WIDE_CHAR_SPACER`). -/
structure Cell where
  c : Char
  wide : Bool
  wideSpacer : Bool
deriving DecidableEq

/-- The push condition of the reconstruction loop:
`ch != '\0' && ch != ' ' || !cell.flags.contains(WIDE_CHAR_SPACER)`
(Rust `&&` binds tighter than `||`). -/
def keepCell (cell : Cell) : Bool :=
  (cell.c ≠ '\x00' && cell.c ≠ ' ') || !cell.wideSpacer

/-- The `while col_index < line.len()` loop of `get_renderable_content`:
push the cell's character when `keepCell` holds, then advance by two columns
for a `WIDE_CHAR` cell and by one column otherwise. -/
def reconstructRow : List Cell → List Char
  | [] => []
  | cell :: rest =>
    (if keepCell cell then [cell.c] else []) ++
    reconstructRow (if cell.wide then rest.drop 1 else rest)
termination_by l => l.length
decreasing_by
  simp only [List.length_cons]
  split
  · simp only [List.length_drop]; omega
  · omega

/-- An ordinary single-width cell (neither wide nor a spacer). -/
def ordinaryCell (c : Char) : Cell := ⟨c, false, false⟩

/-- A wide-character cell. -/
def wideCell (c : Char) : Cell := ⟨c, true, false⟩

/-- The spacer cell occupying the column to the right of a wide cell. -/
def spacerCell (c : Char) : Cell := ⟨c, false, true⟩

/-- A grid row with exactly one wide character at column 3 (its spacer at
column 4) and ordinary cells everywhere else. -/
def wideAtThreeRow (a0 a1 a2 w sp : Char) (rest : List Char) : List Cell :=
  [ordinaryCell a0, ordinaryCell a1, ordinaryCell a2, wideCell w, spacerCell sp] ++
    rest.map ordinaryCell

lemma reconstructRow_cons_ordinary (c : Char) (l : List Cell) :
    reconstructRow (ordinaryCell c :: l) = c :: reconstructRow l := by
  rw [reconstructRow]
  simp [keepCell, ordinaryCell]

lemma reconstructRow_ordinary (cs : List Char) :
    reconstructRow (cs.map ordinaryCell) = cs := by
  induction cs with
  | nil => rw [List.map_nil, reconstructRow]
  | cons c cs ih => simp [reconstructRow_cons_ordinary, ih]

/-! ## Application state (`main.rs`, struct `App` plus the environment it observes) -/

/-- The `TextSelection` struct of `main.rs` (all coordinate fields are `u16`). -/
structure TextSelection where
  start_row : Nat
  start_col : Nat
  end_row : Nat
  end_col : Nat
  is_active : Bool
deriving DecidableEq

/-- Key codes dispatched by `App::handle_key_event` (`other` collects every
crossterm key code that falls into the final wildcard arm). -/
inductive KeyCode where
  | char (c : Char)
  | enter
  | backspace
  | tab
  | esc
  | up
  | down
  | right
  | left
  | pageUp
  | pageDown
  | homeKey
  | endKey
  | other
deriving DecidableEq

/-- A key press: its code and whether the Control modifier is held
(`key.modifiers.contains(KeyModifiers::CONTROL)`). -/
structure KeyEvent where
  code : KeyCode
  ctrl : Bool
deriving DecidableEq

/-- Mouse event kinds dispatched by `App::handle_mouse_event`. -/
inductive MouseKind where
  | downLeft
  | upLeft
  | downRight
  | upRight
  | dragLeft
  | moved
  | scrollDown
  | scrollUp
  | otherKind
deriving DecidableEq

/-- A mouse event with host-cell coordinates (`u16` in the source). -/
structure MouseEvent where
  kind : MouseKind
  column : Nat
  row : Nat
deriving DecidableEq

/-- Outcome of the clipboard environment during one
`App::copy_selected_text` call: construction and `set_text` both succeed,
`arboard::Clipboard::new()` fails, or `set_text` fails. -/
inductive ClipboardOutcome where
  | ok
  | newFails
  | setFails
deriving DecidableEq

/-- The `App` state of `main.rs` together with the observable environment:
the latest renderable snapshot (`content`, `content_ok` modelling the
`Ok`/`Err` result of `Terminal::get_renderable_content`), the emulator's
mouse-reporting mode (`Terminal::is_mouse_mode_enabled`), the log of byte
payloads handed to `Terminal::input`, and the clipboard's stored text.
`cursor_state` and the shutdown atomic play no role in the verified claims
and are omitted. -/
structure AppState where
  should_quit : Bool
  text_selection : TextSelection
  is_dragging : Bool
  scroll_offset : Nat
  total_lines : Nat
  quit_confirm_count : Nat
  areaX : Nat
  areaY : Nat
  areaWidth : Nat
  areaHeight : Nat
  content : List String
  content_ok : Bool
  mouse_mode : Bool
  sent : List (List Nat)
  clipboard : Option String
deriving DecidableEq

/-- Append one byte payload to the input log: `Terminal::input(bytes)`
(the `let _ =` at every call site discards the `Result`). -/
def sendInput (s : AppState) (bytes : List Nat) : AppState :=
  { s with sent := s.sent ++ [bytes] }

/-- UTF-8 encoding of a codepoint, as produced by `char::encode_utf8`. -/
def utf8EncodeChar (c : Char) : List Nat :=
  let n := c.toNat
  if n < 0x80 then [n]
  else if n < 0x800 then [0xC0 + n / 64, 0x80 + n % 64]
  else if n < 0x10000 then [0xE0 + n / 4096, 0x80 + n / 64 % 64, 0x80 + n % 64]
  else [0xF0 + n / 262144, 0x80 + n / 4096 % 64, 0x80 + n / 64 % 64, 0x80 + n % 64]

/-- `App::handle_char_input`: send the UTF-8 bytes of the character. -/
def handle_char_input (s : AppState) (c : Char) : AppState :=
  sendInput s (utf8EncodeChar c)

/-- `App::handle_key_event`.  The source returns `Result<()>` but every arm
ends in `Ok(())`, so the handler is modelled as a total state update.
Arm order follows the source `match`; `Home`/`End` without Control fall
through to the wildcard arm. -/
def handle_key_event (s : AppState) (key : KeyEvent) : AppState :=
  match key.code with
  | .char c =>
    if c = 'z' ∧ key.ctrl then
      if s.quit_confirm_count = 0 then { s with quit_confirm_count := 1 }
      else { s with should_quit := true }
    else handle_char_input s c
  | .enter => sendInput s [0x0d]
  | .backspace => sendInput s [0x7f]
  | .tab => sendInput s [0x09]
  | .esc => sendInput s [0x1b]
  | .up => sendInput s [0x1b, 0x5b, 0x41]
  | .down => sendInput s [0x1b, 0x5b, 0x42]
  | .right => sendInput s [0x1b, 0x5b, 0x43]
  | .left => sendInput s [0x1b, 0x5b, 0x44]
  | .pageUp =>
    let page_size := s.areaHeight - 2
    { s with scroll_offset := s.scroll_offset - page_size }
  | .pageDown =>
    let page_size := s.areaHeight - 2
    let visible_lines := s.areaHeight - 2
    if s.total_lines > visible_lines then
      let max_scroll := (s.total_lines - visible_lines) % U16
      { s with scroll_offset := min ((s.scroll_offset + page_size) % U16) max_scroll }
    else s
  | .homeKey =>
    if key.ctrl then { s with scroll_offset := 0 } else s
  | .endKey =>
    if key.ctrl then
      let visible_lines := s.areaHeight - 2
      if s.total_lines > visible_lines then
        { s with scroll_offset := (s.total_lines - visible_lines) % U16 }
      else s
    else s
  | .other => s

/-- The quit chord: the character `z` with the Control modifier held. -/
def isQuitChord (key : KeyEvent) : Prop :=
  key.code = KeyCode.char 'z' ∧ key.ctrl = true

instance (key : KeyEvent) : Decidable (isQuitChord key) := by
  unfold isQuitChord; infer_instance

/-- The concrete quit-chord key event. -/
def ctrlZ : KeyEvent := ⟨.char 'z', true⟩

/-- A representative non-quit-chord key: plain lowercase a. -/
def keyA : KeyEvent := ⟨.char 'a', false⟩

/-- The `App` state as initialised by `App::new` (`Rect::default()` is all
zeros); the environment fields start empty. -/
def initialState : AppState where
  should_quit := false
  text_selection := ⟨0, 0, 0, 0, false⟩
  is_dragging := false
  scroll_offset := 0
  total_lines := 0
  quit_confirm_count := 0
  areaX := 0
  areaY := 0
  areaWidth := 0
  areaHeight := 0
  content := []
  content_ok := true
  mouse_mode := false
  sent := []
  clipboard := none

/-! ## Coordinate mapping and selection (`main.rs`) -/

/-- `App::mouse_to_terminal_coords`.  Border/outside points yield `none`;
inside points are translated to pane-relative coordinates and the row is
shifted by the scroll offset (a wrapping `u16` addition in the source). -/
def mouse_to_terminal_coords (s : AppState) (mouse_col mouse_row : Nat) :
    Option (Nat × Nat) :=
  let area_left := s.areaX
  let area_top := s.areaY
  let area_right := (s.areaX + s.areaWidth) % U16
  let area_bottom := (s.areaY + s.areaHeight) % U16
  if mouse_col ≤ area_left ∨ mouse_col ≥ area_right - 1 ∨
      mouse_row ≤ area_top ∨ mouse_row ≥ area_bottom - 1 then
    none
  else
    let terminal_col := mouse_col - (area_left + 1) % U16
    let relative_terminal_row := mouse_row - (area_top + 1) % U16
    let terminal_row := (relative_terminal_row + s.scroll_offset) % U16
    let inner_width := s.areaWidth - 2
    let inner_height := s.areaHeight - 2
    if terminal_col < inner_width ∧ relative_terminal_row < inner_height then
      some (terminal_col, terminal_row)
    else
      none

/-- `App::start_text_selection`: on a successful coordinate mapping, anchor a
fresh active selection at that cell and clear the dragging flag. -/
def start_text_selection (s : AppState) (col row : Nat) : AppState :=
  match mouse_to_terminal_coords s col row with
  | some (tc, tr) =>
    { s with text_selection := ⟨tr, tc, tr, tc, true⟩, is_dragging := false }
  | none => s

/-- `App::update_text_selection`: move the selection head while active. -/
def update_text_selection (s : AppState) (col row : Nat) : AppState :=
  if s.text_selection.is_active then
    match mouse_to_terminal_coords s col row with
    | some (tc, tr) =>
      { s with text_selection :=
          { s.text_selection with end_row := tr, end_col := tc } }
    | none => s
  else s

/-- `App::finish_text_selection`: if dragging, move the head to the release
point (when mappable) and clear the dragging flag. -/
def finish_text_selection (s : AppState) (col row : Nat) : AppState :=
  if s.is_dragging then
    let s' :=
      match mouse_to_terminal_coords s col row with
      | some (tc, tr) =>
        { s with text_selection :=
            { s.text_selection with end_row := tr, end_col := tc } }
      | none => s
    { s' with is_dragging := false }
  else s

/-- `App::normalize_selection`: swap the endpoint pairs when the start lies
after the end in row-major order; returns `(start_row, start_col, end_row,
end_col)`. -/
def normalize_selection (sel : TextSelection) : Nat × Nat × Nat × Nat :=
  if sel.start_row > sel.end_row ∨
      (sel.start_row = sel.end_row ∧ sel.start_col > sel.end_col) then
    (sel.end_row, sel.end_col, sel.start_row, sel.start_col)
  else
    (sel.start_row, sel.start_col, sel.end_row, sel.end_col)

/-- Row-major (lexicographic) order on `(row, col)` pairs. -/
def lexLE (p q : Nat × Nat) : Prop :=
  p.1 < q.1 ∨ (p.1 = q.1 ∧ p.2 ≤ q.2)

instance (p q : Nat × Nat) : Decidable (lexLE p q) := by
  unfold lexLE; infer_instance

/-- The slice `line_chars[start_pos..end_pos]` guarded by
`start_pos < line_chars.len()` in `App::copy_selected_text`.  (Rust would
panic when `end_pos < start_pos`; with a normalized selection that cannot
happen, and the `Nat` subtraction below agrees with the source on every
reachable input.) -/
def sliceRow (lineCs : List Char) (start_pos end_pos : Nat) : List Char :=
  if start_pos < lineCs.length then
    (lineCs.drop start_pos).take (end_pos - start_pos)
  else
    []

/-- The `for row in start_row..=end_row` loop body of
`App::copy_selected_text`, accumulating from row `row` upward: rows absent
from the snapshot contribute nothing; each present row contributes its slice
plus a newline for every row but the last. -/
def copyRows (lines : List String) (start_row start_col end_row end_col : Nat) :
    Nat → Nat → List Char
  | 0, _ => []
  | fuel + 1, row =>
    (match lines.get? row with
     | some line =>
       let cs := line.toList
       let start_pos := if row = start_row then start_col else 0
       let end_pos := if row = end_row then min (end_col + 1) cs.length else cs.length
       sliceRow cs start_pos end_pos ++ (if row < end_row then ['\n'] else [])
     | none => []) ++
    copyRows lines start_row start_col end_row end_col fuel (row + 1)

/-- The full `selected_text` string built by `App::copy_selected_text` for a
normalized selection, as a character list (`end_row + 1 - start_row` is the
iteration count of the source's inclusive row loop). -/
def selected_chars (lines : List String) (start_row start_col end_row end_col : Nat) :
    List Char :=
  copyRows lines start_row start_col end_row end_col (end_row + 1 - start_row) start_row

/-- The `selected_text.trim().is_empty()` test of the source: `str::trim`
removes leading and trailing whitespace, so the trimmed string is empty
exactly when every character is whitespace. -/
def isBlank (cs : List Char) : Bool :=
  cs.all Char.isWhitespace

/-- `App::copy_selected_text`.  The source returns `Result<()>` and every
path returns `Ok(())`; the `Except` wrapper records that.  The clipboard is
written only when the text is not blank and both clipboard operations
succeed; the selection is deactivated afterwards regardless. -/
def copy_selected_text (clip : ClipboardOutcome) (s : AppState) :
    Except Unit AppState :=
  if !s.text_selection.is_active then .ok s
  else if !s.content_ok then .ok s
  else
    let n := normalize_selection s.text_selection
    let text := selected_chars s.content n.1 n.2.1 n.2.2.1 n.2.2.2
    let s' :=
      if ¬ isBlank text ∧ clip = ClipboardOutcome.ok then
        { s with clipboard := some (String.mk text) }
      else s
    .ok { s' with text_selection := { s'.text_selection with is_active := false } }

/-- State-level view of `copy_selected_text` (the call sites use the `?`
operator, and the callee always succeeds). -/
def copyState (clip : ClipboardOutcome) (s : AppState) : AppState :=
  ((copy_selected_text clip s).toOption).getD s

/-- Decimal digits of a number as ASCII bytes, as `format!` renders a `u16`. -/
def natDecimalBytes (n : Nat) : List Nat :=
  (Nat.repr n).toList.map Char.toNat

/-- The cursor-teleport escape `ESC [ row+1 ; col+1 H` sent on a plain click
(`format!` receives `u16` values, wrapping at 65536). -/
def cursorEscape (row col : Nat) : List Nat :=
  [0x1b, 0x5b] ++ natDecimalBytes ((row + 1) % U16) ++ [0x3b] ++
    natDecimalBytes ((col + 1) % U16) ++ [0x48]

/-- `App::send_mouse_event` (`ESC[M` followed by three formatted `char`s;
note the payload goes through `format!`, so characters ≥ 0x80 are UTF-8
encoded).  The function is dead code: no call site exists in the repo. -/
def send_mouse_event (s : AppState) (button col row : Nat) : AppState :=
  let button_char := (button + 32) % 256
  let col_char := min (min (col + 32) (U16 - 1)) 255
  let row_char := min (min (row + 32) (U16 - 1)) 255
  sendInput s ([0x1b, 0x5b, 0x4d] ++
    utf8EncodeChar (Char.ofNat button_char) ++
    utf8EncodeChar (Char.ofNat col_char) ++
    utf8EncodeChar (Char.ofNat row_char))

/-- `App::handle_mouse_event`.  Every source path ends in `Ok(())`, so the
handler is modelled as a total state update.  Wheel events are handled
locally in all cases; no arm consults `is_mouse_mode_enabled` or forwards a
mouse report. -/
def handle_mouse_event (clip : ClipboardOutcome) (s : AppState)
    (mouse : MouseEvent) : AppState :=
  match mouse.kind with
  | .downLeft => start_text_selection s mouse.column mouse.row
  | .upLeft =>
    if s.is_dragging then
      copyState clip (finish_text_selection s mouse.column mouse.row)
    else if s.text_selection.is_active then
      copyState clip (finish_text_selection s mouse.column mouse.row)
    else
      match mouse_to_terminal_coords s mouse.column mouse.row with
      | some (tc, tr) => sendInput s (cursorEscape tr tc)
      | none => s
  | .downRight => s
  | .upRight => s
  | .dragLeft =>
    update_text_selection { s with is_dragging := true } mouse.column mouse.row
  | .moved =>
    if s.is_dragging ∧ s.text_selection.is_active then
      update_text_selection s mouse.column mouse.row
    else s
  | .scrollDown =>
    let visible_lines := s.areaHeight - 2
    if s.total_lines > visible_lines then
      let max_scroll := (s.total_lines - visible_lines) % U16
      if s.scroll_offset < max_scroll then
        { s with scroll_offset := min ((s.scroll_offset + 3) % U16) max_scroll }
      else s
    else s
  | .scrollUp =>
    if s.scroll_offset > 0 then
      { s with scroll_offset := s.scroll_offset - 3 }
    else s
  | .otherKind => s

/-- The state change the `ratatui_terminal.draw` closure applies to the
fields relevant here (`App::run`, one frame): the pane rectangle is taken
from the frame layout, and on a readable snapshot `total_lines` is set to
the snapshot length.  No reclamping of `scroll_offset` occurs anywhere in
the closure. -/
def frame_update (s : AppState) (areaX areaY areaW areaH : Nat)
    (snapshot : Option (List String)) : AppState :=
  let s0 := { s with areaX := areaX, areaY := areaY,
                     areaWidth := areaW, areaHeight := areaH }
  match snapshot with
  | some rows => { s0 with content := rows, content_ok := true,
                           total_lines := rows.length }
  | none => { s0 with content_ok := false }

/-- The scroll-offset clamp invariant stated by the spec:
`0 ≤ offset ≤ max(0, total_lines − visible_rows)` (the lower bound is
inherent to `Nat`). -/
def scrollInv (s : AppState) : Prop :=
  s.scroll_offset ≤ s.total_lines - (s.areaHeight - 2)

instance (s : AppState) : Decidable (scrollInv s) := by
  unfold scrollInv; infer_instance

/-! ## Scrollbar geometry (`App::render_scrollbar`) -/

/-- Thumb geometry computed by `App::render_scrollbar`, or `none` when the
scrollbar is not drawn (track shorter than 3 cells, or nothing to scroll).
The source computes in `f32` and converts with `as usize` (truncation);
the arithmetic is modelled exactly over `ℚ`. -/
def scrollbar_geometry (s : AppState) (trackHeight : Nat) : Option (Nat × Nat) :=
  if trackHeight < 3 then none
  else
    let visible_lines := s.areaHeight - 2
    if s.total_lines > visible_lines then
      let max_scroll : ℚ := (s.total_lines - visible_lines : Nat)
      let thumb_size : Nat :=
        (⌊max (((visible_lines : ℚ) / (s.total_lines : ℚ)) * (trackHeight : ℚ)) 1⌋).toNat
      let scroll_ratio : ℚ :=
        if max_scroll > 0 then (s.scroll_offset : ℚ) / max_scroll else 0
      let thumb_position : Nat :=
        (⌊scroll_ratio * ((trackHeight - thumb_size : Nat) : ℚ)⌋).toNat
      some (thumb_position, thumb_size)
    else none

/-! ## Spec-worded definitions (for refinement comparisons only; every
definition above is translated from the source) -/

/-- Spec wording of a row slice: the codepoints from column `a` through
column `b` inclusive (clamped to the row by the semantics of `take`). -/
def specRowSlice (lineCs : List Char) (a b : Nat) : List Char :=
  (lineCs.drop a).take (b + 1 - a)

/-- Spec wording of the materialized contribution of row `r`: start column
is `start_col` on the first selected row and 0 otherwise; end column
(inclusive) is `end_col` on the last selected row and the last codepoint of
the row otherwise. -/
def specRowOf (lines : List String) (start_row start_col end_row end_col r : Nat) :
    List Char :=
  match lines.get? r with
  | some line =>
    specRowSlice line.toList (if r = start_row then start_col else 0)
      (if r = end_row then end_col else line.toList.length - 1)
  | none => []

/-- The per-row slices of the spec's materialization, from row `r` up to the
last selected row. -/
def specSlices (lines : List String) (start_row start_col end_row end_col : Nat) :
    Nat → Nat → List (List Char)
  | 0, _ => []
  | fuel + 1, r =>
    specRowOf lines start_row start_col end_row end_col r ::
      specSlices lines start_row start_col end_row end_col fuel (r + 1)

/-- Spec wording of the join: a single newline between consecutive rows, no
trailing newline. -/
def joinWithNewline : List (List Char) → List Char
  | [] => []
  | [x] => x
  | x :: y :: rest => x ++ '\n' :: joinWithNewline (y :: rest)

/-- Spec wording of the scrollbar thumb height with rounding, as the spec
states it: `max(1, round(visible_rows / total_rows × track_height))`,
rounding half away from zero as `f32::round` does (the arguments here are
nonnegative). -/
def spec_thumb_size_round (visible total track : Nat) : Nat :=
  max 1 (⌊(visible : ℚ) / (total : ℚ) * (track : ℚ) + 1 / 2⌋).toNat

/-- The thumb height the code actually computes, written in the shape of the
spec sentence with rounding replaced by truncation:
`max(1, floor(visible_rows / total_rows × track_height))`. -/
def spec_thumb_size_floor (visible total track : Nat) : Nat :=
  max 1 (⌊(visible : ℚ) / (total : ℚ) * (track : ℚ)⌋).toNat

/-- The thumb top the code actually computes, in the shape of the spec
sentence with rounding replaced by truncation:
`floor(offset / max_offset × (track_height − thumb_height))` (division by a
zero `max_offset` yields 0, matching the source's guarded ratio). -/
def spec_thumb_top_floor (offset maxOffset track thumb : Nat) : Nat :=
  (⌊(offset : ℚ) / (maxOffset : ℚ) * ((track - thumb : Nat) : ℚ)⌋).toNat

/-! ## Concrete states used by counterexamples and witnesses -/

/-- A scrollable state in which the emulator reports mouse mode enabled:
20 snapshot rows, pane height 7 (5 visible rows), offset 0. -/
def sScroll : AppState :=
  { initialState with
      mouse_mode := true
      total_lines := 20
      areaHeight := 7 }

/-- A pane of size 10×10 at the origin with a three-row snapshot; the
selection is inactive and nothing has been sent. -/
def sPane : AppState :=
  { initialState with
      areaWidth := 10
      areaHeight := 10
      content := ["abcdef", "ghijkl", "mnopqr"] }

/-- A state satisfying the clamp invariant (offset 3 of max 5) whose
snapshot is about to shrink. -/
def sShrink : AppState :=
  { initialState with
      scroll_offset := 3
      total_lines := 10
      areaHeight := 7 }

/-- A state with an active normalized selection covering rows 0–1 of a
two-row snapshot. -/
def sSel : AppState :=
  { initialState with
      text_selection := ⟨0, 0, 1, 1, true⟩
      content := ["ab", "cd"] }

/-- A state with 4 snapshot rows and 3 visible rows, used with a track of
height 10 (so the exact thumb ratio is 7.5). -/
def sBar : AppState :=
  { initialState with
      total_lines := 4
      areaHeight := 5 }

/-! ## Theorems -/

lemma reconstructRow_cons_wide (c : Char) (x : Cell) (l : List Cell) :
    reconstructRow (wideCell c :: x :: l) = c :: reconstructRow l := by
  rw [reconstructRow]
  simp [keepCell, wideCell]

/-- C7: row reconstruction skips the spacer of a wide character and emits the
wide codepoint once: a grid row of width `columns` with one wide character at
column 3 (spacer at column 4) and ordinary single-width cells in every other
column reconstructs to a string of exactly `columns − 1` codepoints. -/
theorem wide_char_row_reconstruction (a0 a1 a2 w sp : Char) (rest : List Char) :
    (reconstructRow (wideAtThreeRow a0 a1 a2 w sp rest)).length =
      (wideAtThreeRow a0 a1 a2 w sp rest).length - 1 := by
  simp only [wideAtThreeRow, List.cons_append, List.nil_append,
    reconstructRow_cons_ordinary, reconstructRow_cons_wide, reconstructRow_ordinary]
  simp [List.length_cons]

/-- C6: `normalize_selection` returns the row-major (lexicographic) minimum
of the anchor and head pairs as the start and the maximum as the end, and it
is idempotent: renormalizing an already-normalized selection changes
nothing. -/
theorem normalize_selection_lex_minmax (sel : TextSelection) :
    (((normalize_selection sel).1, (normalize_selection sel).2.1) =
        (sel.start_row, sel.start_col) ∧
      ((normalize_selection sel).2.2.1, (normalize_selection sel).2.2.2) =
        (sel.end_row, sel.end_col) ∨
     ((normalize_selection sel).1, (normalize_selection sel).2.1) =
        (sel.end_row, sel.end_col) ∧
      ((normalize_selection sel).2.2.1, (normalize_selection sel).2.2.2) =
        (sel.start_row, sel.start_col)) ∧
    lexLE ((normalize_selection sel).1, (normalize_selection sel).2.1)
      (sel.start_row, sel.start_col) ∧
    lexLE ((normalize_selection sel).1, (normalize_selection sel).2.1)
      (sel.end_row, sel.end_col) ∧
    lexLE (sel.start_row, sel.start_col)
      ((normalize_selection sel).2.2.1, (normalize_selection sel).2.2.2) ∧
    lexLE (sel.end_row, sel.end_col)
      ((normalize_selection sel).2.2.1, (normalize_selection sel).2.2.2) ∧
    normalize_selection
        ⟨(normalize_selection sel).1, (normalize_selection sel).2.1,
          (normalize_selection sel).2.2.1, (normalize_selection sel).2.2.2,
          sel.is_active⟩ =
      normalize_selection sel := by
  unfold normalize_selection lexLE
  by_cases h : sel.start_row > sel.end_row ∨
      (sel.start_row = sel.end_row ∧ sel.start_col > sel.end_col)
  · rw [if_pos h]
    refine ⟨Or.inr ⟨rfl, rfl⟩, ?_, ?_, ?_, ?_, ?_⟩ <;> simp <;> omega
  · rw [if_neg h]
    refine ⟨Or.inl ⟨rfl, rfl⟩, ?_, ?_, ?_, ?_, ?_⟩ <;> simp <;> omega

/-- C10: the quit chord is consumed entirely by the quit gate; dispatching it
never appends a payload to the emulator input log. -/
theorem quit_chord_not_forwarded (s : AppState) (key : KeyEvent)
    (h : isQuitChord key) : (handle_key_event s key).sent = s.sent := by
  obtain ⟨hc, hct⟩ := h
  rcases key with ⟨code, ctrl⟩
  simp only at hc hct
  subst hc
  subst hct
  simp only [handle_key_event]
  rw [if_pos (⟨trivial, trivial⟩ : True ∧ True)]
  split <;> rfl

/-- Witness for C10 at a concrete state and the concrete chord. -/
theorem quit_chord_not_forwarded_witness :
    (handle_key_event initialState ctrlZ).sent = initialState.sent :=
  quit_chord_not_forwarded initialState ctrlZ ⟨rfl, rfl⟩

/-- C1 counterexample: from counter 0, the three-press sequence quit-chord,
other key, quit-chord leaves the exit flag `true`, because no arm of
`handle_key_event` ever resets `quit_confirm_count`; the claim says the flag
would be `false`. -/
theorem quit_other_quit_sets_exit_cex :
    initialState.quit_confirm_count = 0 ∧ ¬ isQuitChord keyA ∧
    (handle_key_event (handle_key_event (handle_key_event initialState ctrlZ) keyA)
        ctrlZ).should_quit = true := by
  refine ⟨rfl, by decide, ?_⟩
  rfl

lemma handle_key_count_of_not_chord (s : AppState) (key : KeyEvent)
    (hk : ¬ isQuitChord key) :
    (handle_key_event s key).quit_confirm_count = s.quit_confirm_count := by
  rcases key with ⟨code, ctrl⟩
  cases code with
  | char c =>
    by_cases hz : c = 'z' ∧ ctrl = true
    · exact absurd ⟨by rw [hz.1], hz.2⟩ hk
    · simp only [handle_key_event, if_neg hz]
      rfl
  | enter => rfl
  | backspace => rfl
  | tab => rfl
  | esc => rfl
  | up => rfl
  | down => rfl
  | right => rfl
  | left => rfl
  | pageUp => rfl
  | pageDown => simp only [handle_key_event]; split <;> rfl
  | homeKey => simp only [handle_key_event]; split <;> rfl
  | endKey => simp only [handle_key_event]; split <;> (try split) <;> rfl
  | other => rfl

lemma handle_ctrlZ_quits (s : AppState) (h : ¬ s.quit_confirm_count = 0) :
    (handle_key_event s ctrlZ).should_quit = true := by
  simp only [handle_key_event, ctrlZ]
  rw [if_pos (⟨trivial, trivial⟩ : True ∧ True), if_neg h]

/-- C1 amended: no key ever resets `quit_confirm_count` — the counter
survives any non-quit-chord key — so two quit chords set the exit flag even
with other keys pressed in between; in particular the three-press sequence
quit-chord, other key, quit-chord from counter 0 exits. -/
theorem quit_gate_no_reset (s : AppState) (key : KeyEvent)
    (hk : ¬ isQuitChord key) (h0 : s.quit_confirm_count = 0) :
    (handle_key_event s key).quit_confirm_count = s.quit_confirm_count ∧
    (handle_key_event (handle_key_event (handle_key_event s ctrlZ) key)
        ctrlZ).should_quit = true := by
  refine ⟨handle_key_count_of_not_chord s key hk, ?_⟩
  have h1 : handle_key_event s ctrlZ = { s with quit_confirm_count := 1 } := by
    simp only [handle_key_event, ctrlZ]
    rw [if_pos (⟨trivial, trivial⟩ : True ∧ True), if_pos h0]
  have h2 : (handle_key_event (handle_key_event s ctrlZ) key).quit_confirm_count = 1 := by
    rw [handle_key_count_of_not_chord _ key hk, h1]
  exact handle_ctrlZ_quits _ (by rw [h2]; omega)

/-- Witness for the amended C1 at the initial state with the other key being
plain a. -/
theorem quit_gate_no_reset_witness :
    (handle_key_event initialState keyA).quit_confirm_count =
      initialState.quit_confirm_count ∧
    (handle_key_event (handle_key_event (handle_key_event initialState ctrlZ) keyA)
        ctrlZ).should_quit = true :=
  quit_gate_no_reset initialState keyA (by decide) rfl

/-- C2 counterexample: with mouse mode reported enabled, a wheel-down event
is not encoded or delivered to `input()` at all — the input log stays
empty — and `scroll_offset` changes from 0 to 3; the claim asserts an
`ESC [ M` report is delivered and the offset is unchanged. -/
theorem wheel_not_forwarded_cex :
    sScroll.mouse_mode = true ∧
    handle_mouse_event ClipboardOutcome.ok sScroll ⟨MouseKind.scrollDown, 5, 5⟩ =
      { sScroll with scroll_offset := 3 } ∧
    (handle_mouse_event ClipboardOutcome.ok sScroll
        ⟨MouseKind.scrollDown, 5, 5⟩).sent = [] ∧
    (handle_mouse_event ClipboardOutcome.ok sScroll
        ⟨MouseKind.scrollDown, 5, 5⟩).scroll_offset ≠ sScroll.scroll_offset := by
  refine ⟨rfl, by decide, by decide, by decide⟩

/-- C2 amended: wheel events are always handled locally, even when the
emulator reports mouse mode enabled: nothing is delivered to `input()`, and
`scroll_offset` follows the local scroll rules (down: +3 clamped to the
maximum offset when scrollable, otherwise unchanged; up: −3 saturating). -/
theorem wheel_events_local_only (clip : ClipboardOutcome) (s : AppState)
    (e : MouseEvent) (_hm : s.mouse_mode = true)
    (hk : e.kind = MouseKind.scrollDown ∨ e.kind = MouseKind.scrollUp) :
    (handle_mouse_event clip s e).sent = s.sent ∧
    (e.kind = MouseKind.scrollDown →
      handle_mouse_event clip s e =
        { s with scroll_offset :=
            if s.total_lines > s.areaHeight - 2 ∧
                s.scroll_offset < (s.total_lines - (s.areaHeight - 2)) % U16 then
              (min ((s.scroll_offset + 3) % U16)
                ((s.total_lines - (s.areaHeight - 2)) % U16))
            else s.scroll_offset }) ∧
    (e.kind = MouseKind.scrollUp →
      handle_mouse_event clip s e =
        { s with scroll_offset :=
            if s.scroll_offset > 0 then s.scroll_offset - 3
            else s.scroll_offset }) := by
  rcases e with ⟨kind, col, row⟩
  rcases hk with h | h <;> subst h
  · refine ⟨?_, fun _ => ?_, fun h => by simp at h⟩ <;>
      · simp only [handle_mouse_event]
        by_cases h1 : s.total_lines > s.areaHeight - 2 <;>
          by_cases h2 : s.scroll_offset < (s.total_lines - (s.areaHeight - 2)) % U16 <;>
          simp [h1, h2]
  · refine ⟨?_, fun h => by simp at h, fun _ => ?_⟩ <;>
      · simp only [handle_mouse_event]
        by_cases h1 : s.scroll_offset > 0 <;> simp [h1]

/-- Witness for the amended C2: wheel-down on the concrete scrollable state
with mouse mode enabled. -/
theorem wheel_events_local_only_witness :
    (handle_mouse_event ClipboardOutcome.ok sScroll
        ⟨MouseKind.scrollDown, 5, 5⟩).sent = sScroll.sent ∧
    ((MouseEvent.mk MouseKind.scrollDown 5 5).kind = MouseKind.scrollDown →
      handle_mouse_event ClipboardOutcome.ok sScroll ⟨MouseKind.scrollDown, 5, 5⟩ =
        { sScroll with scroll_offset :=
            if sScroll.total_lines > sScroll.areaHeight - 2 ∧
                sScroll.scroll_offset <
                  (sScroll.total_lines - (sScroll.areaHeight - 2)) % U16 then
              (min ((sScroll.scroll_offset + 3) % U16)
                ((sScroll.total_lines - (sScroll.areaHeight - 2)) % U16))
            else sScroll.scroll_offset }) ∧
    ((MouseEvent.mk MouseKind.scrollDown 5 5).kind = MouseKind.scrollUp →
      handle_mouse_event ClipboardOutcome.ok sScroll ⟨MouseKind.scrollDown, 5, 5⟩ =
        { sScroll with scroll_offset :=
            if sScroll.scroll_offset > 0 then sScroll.scroll_offset - 3
            else sScroll.scroll_offset }) :=
  wheel_events_local_only ClipboardOutcome.ok sScroll
    ⟨MouseKind.scrollDown, 5, 5⟩ rfl (Or.inl rfl)

/-- C3 counterexample: the per-frame update re-reads `total_lines` from the
snapshot but performs no reclamping, so when the snapshot shrinks the clamp
invariant holds before the frame and fails after it. -/
theorem frame_update_breaks_clamp_cex :
    scrollInv sShrink ∧
    ¬ scrollInv (frame_update sShrink 0 0 0 7 (some [])) := by
  refine ⟨by decide, by decide⟩

/-- C3 amended: every scroll transition (wheel up/down, PageUp/PageDown,
Ctrl+Home/Ctrl+End) preserves the clamp invariant
`0 ≤ scroll_offset ≤ max(0, total_lines − visible_rows)`; the per-frame
update, however, only re-reads `total_lines` and performs no reclamping, so
the invariant can fail after a frame in which the snapshot shrank. -/
theorem scroll_transitions_preserve_clamp (clip : ClipboardOutcome)
    (s : AppState) (col row : Nat) (hinv : scrollInv s) :
    scrollInv (handle_key_event s ⟨KeyCode.pageUp, false⟩) ∧
    scrollInv (handle_key_event s ⟨KeyCode.pageDown, false⟩) ∧
    scrollInv (handle_key_event s ⟨KeyCode.homeKey, true⟩) ∧
    scrollInv (handle_key_event s ⟨KeyCode.endKey, true⟩) ∧
    scrollInv (handle_mouse_event clip s ⟨MouseKind.scrollDown, col, row⟩) ∧
    scrollInv (handle_mouse_event clip s ⟨MouseKind.scrollUp, col, row⟩) := by
  unfold scrollInv at hinv
  refine ⟨?_, ?_, ?_, ?_, ?_, ?_⟩
  · exact le_trans (Nat.sub_le _ _) hinv
  · by_cases h1 : s.total_lines > s.areaHeight - 2
    · simp [handle_key_event, h1]
      exact le_trans (Nat.min_le_right _ _) (Nat.mod_le _ _)
    · simp [handle_key_event, h1]
      exact hinv
  · exact Nat.zero_le _
  · by_cases h1 : s.total_lines > s.areaHeight - 2
    · simp [handle_key_event, h1]
      exact Nat.mod_le _ _
    · simp [handle_key_event, h1]
      exact hinv
  · by_cases h1 : s.total_lines > s.areaHeight - 2 <;>
      by_cases h2 : s.scroll_offset < (s.total_lines - (s.areaHeight - 2)) % U16 <;>
      simp [handle_mouse_event, h1, h2] <;>
      first
        | exact le_trans (Nat.min_le_right _ _) (Nat.mod_le _ _)
        | exact hinv
  · by_cases h1 : s.scroll_offset > 0 <;> simp [handle_mouse_event, h1] <;>
      first
        | exact le_trans (Nat.sub_le _ _) hinv
        | exact hinv

/-- Witness for the amended C3 on a concrete state satisfying the clamp. -/
theorem scroll_transitions_preserve_clamp_witness :
    scrollInv (handle_key_event sShrink ⟨KeyCode.pageUp, false⟩) ∧
    scrollInv (handle_key_event sShrink ⟨KeyCode.pageDown, false⟩) ∧
    scrollInv (handle_key_event sShrink ⟨KeyCode.homeKey, true⟩) ∧
    scrollInv (handle_key_event sShrink ⟨KeyCode.endKey, true⟩) ∧
    scrollInv (handle_mouse_event ClipboardOutcome.ok sShrink
      ⟨MouseKind.scrollDown, 0, 0⟩) ∧
    scrollInv (handle_mouse_event ClipboardOutcome.ok sShrink
      ⟨MouseKind.scrollUp, 0, 0⟩) :=
  scroll_transitions_preserve_clamp ClipboardOutcome.ok sShrink 0 0 (by decide)

lemma copyState_sent (clip : ClipboardOutcome) (s : AppState) :
    (copyState clip s).sent = s.sent := by
  unfold copyState copy_selected_text
  split
  · rfl
  · split
    · rfl
    · dsimp only
      split <;> rfl

/-- C4 counterexample: a left click fully inside the pane interior, with no
drag in between, maps to grid cell (1, 1) but sends nothing to `input()`
(the mouse-down starts a selection, and the mouse-up finalizes it instead of
sending the cursor-position escape). -/
theorem inside_click_no_cursor_escape_cex :
    mouse_to_terminal_coords sPane 2 2 = some (1, 1) ∧
    sPane.is_dragging = false ∧
    (handle_mouse_event ClipboardOutcome.ok
        (handle_mouse_event ClipboardOutcome.ok sPane ⟨MouseKind.downLeft, 2, 2⟩)
        ⟨MouseKind.upLeft, 2, 2⟩).sent = [] := by
  refine ⟨by decide, rfl, by decide⟩

/-- C4 amended: the cursor-position escape `ESC [ row+1 ; col+1 H` is sent
on a left-button release only when no selection is active and no drag is in
progress (which cannot be the case for a click whose mouse-down landed
inside the pane interior: that down event starts a selection, so the
matching release finalizes the selection and sends nothing). -/
theorem click_cursor_escape_conditions (clip : ClipboardOutcome)
    (s : AppState) (col row : Nat) :
    (∀ tc tr, s.is_dragging = false → s.text_selection.is_active = false →
      mouse_to_terminal_coords s col row = some (tc, tr) →
      handle_mouse_event clip s ⟨MouseKind.upLeft, col, row⟩ =
        sendInput s (cursorEscape tr tc)) ∧
    ((mouse_to_terminal_coords s col row).isSome = true →
      (handle_mouse_event clip
          (handle_mouse_event clip s ⟨MouseKind.downLeft, col, row⟩)
          ⟨MouseKind.upLeft, col, row⟩).sent = s.sent) := by
  constructor
  · intro tc tr hdrag hact hcoords
    simp [handle_mouse_event, hdrag, hact, hcoords]
  · intro hsome
    obtain ⟨⟨tc, tr⟩, heq⟩ := Option.isSome_iff_exists.mp hsome
    simp [handle_mouse_event, start_text_selection, heq, finish_text_selection,
      copyState_sent]

/-- Witness for the amended C4: release without active selection sends the
escape; a full inside click sends nothing. -/
theorem click_cursor_escape_conditions_witness :
    handle_mouse_event ClipboardOutcome.ok sPane ⟨MouseKind.upLeft, 2, 2⟩ =
      sendInput sPane (cursorEscape 1 1) ∧
    (handle_mouse_event ClipboardOutcome.ok
        (handle_mouse_event ClipboardOutcome.ok sPane ⟨MouseKind.downLeft, 2, 2⟩)
        ⟨MouseKind.upLeft, 2, 2⟩).sent = sPane.sent := by
  have h := click_cursor_escape_conditions ClipboardOutcome.ok sPane 2 2
  exact ⟨h.1 1 1 rfl rfl (by decide), h.2 (by decide)⟩

/-! ## Selection materialization (C5) -/

lemma join_cons_cons (x y : List Char) (t : List (List Char)) :
    joinWithNewline (x :: y :: t) = x ++ '\n' :: joinWithNewline (y :: t) := rfl

lemma sliceRow_eq_spec_mid (cs : List Char) (sp : Nat) :
    sliceRow cs sp cs.length = specRowSlice cs sp (cs.length - 1) := by
  unfold sliceRow specRowSlice
  split_ifs with h
  · congr 1
    omega
  · rw [List.drop_eq_nil_of_le (by omega)]
    simp

lemma sliceRow_eq_spec_last (cs : List Char) (sp ec : Nat) :
    sliceRow cs sp (min (ec + 1) cs.length) = specRowSlice cs sp ec := by
  unfold sliceRow specRowSlice
  split_ifs with h
  · rw [List.take_eq_take]
    simp only [List.length_drop]
    omega
  · rw [List.drop_eq_nil_of_le (by omega)]
    simp

lemma sliceRow_subset (cs : List Char) (sp ep : Nat) : sliceRow cs sp ep ⊆ cs := by
  unfold sliceRow
  split
  · exact fun x hx => List.drop_subset _ _ (List.take_subset _ _ hx)
  · exact List.nil_subset _

lemma copyRows_eq_join (lines : List String) (sr sc er ec : Nat)
    (hlen : er < lines.length) :
    ∀ fuel r, r + fuel = er + 1 → r ≤ er →
      copyRows lines sr sc er ec fuel r =
        joinWithNewline (specSlices lines sr sc er ec fuel r) := by
  intro fuel
  induction fuel with
  | zero => intro r h1 h2; omega
  | succ n ih =>
    intro r h1 h2
    obtain ⟨line, hline⟩ : ∃ line, lines.get? r = some line :=
      ⟨lines.get ⟨r, by omega⟩, List.get?_eq_get (by omega)⟩
    by_cases hlast : r = er
    · have hn : n = 0 := by omega
      subst hn
      subst hlast
      simp only [copyRows, specSlices, hline, joinWithNewline, specRowOf,
        lt_self_iff_false, eq_self_iff_true, ite_true, ite_false,
        List.append_nil]
      exact sliceRow_eq_spec_last _ _ _
    · have hlt : r < er := by omega
      obtain ⟨m, rfl⟩ : ∃ m, n = m + 1 := ⟨n - 1, by omega⟩
      rw [copyRows, specSlices, specSlices, join_cons_cons]
      rw [ih (r + 1) (by omega) (by omega), specSlices]
      simp only [hline, if_pos hlt, if_neg hlast]
      rw [sliceRow_eq_spec_mid]
      simp only [specRowOf, hline, if_neg hlast]
      simp [List.append_assoc]

lemma copyRows_count (lines : List String) (sr sc er ec : Nat)
    (hlen : er < lines.length)
    (hnl : ∀ l ∈ lines, ('\n') ∉ l.toList) :
    ∀ fuel r, r + fuel = er + 1 →
      (copyRows lines sr sc er ec fuel r).count '\n' = er - r := by
  intro fuel
  induction fuel with
  | zero =>
    intro r h1
    simp only [copyRows, List.count_nil]
    omega
  | succ n ih =>
    intro r h1
    have hr : r ≤ er := by omega
    obtain ⟨line, hline⟩ : ∃ line, lines.get? r = some line :=
      ⟨lines.get ⟨r, by omega⟩, List.get?_eq_get (by omega)⟩
    have hmem : line ∈ lines := List.get?_mem hline
    rw [copyRows]
    simp only [hline]
    rw [List.count_append, List.count_append]
    rw [ih (r + 1) (by omega)]
    have h0 : (sliceRow line.toList (if r = sr then sc else 0)
        (if r = er then min (ec + 1) line.toList.length else line.toList.length)).count '\n' = 0 :=
      List.count_eq_zero.mpr fun hx => hnl line hmem (sliceRow_subset _ _ _ hx)
    rw [h0]
    by_cases hlast : r = er
    · rw [if_neg (by omega : ¬ r < er)]
      simp only [List.count_nil]
      omega
    · rw [if_pos (by omega : r < er)]
      simp
      omega

/-- C5: for an active selection normalized to `(sr, sc, er, ec)` with the
last row inside the snapshot, the materialized text is exactly the spec's
join — for each row the codepoint slice from `sc` (first row) or 0 through
`ec` inclusive (last row) or the last codepoint, with one newline between
consecutive rows and none trailing — hence it contains exactly `er − sr`
newlines, and the text reaches the clipboard exactly when it is not
whitespace-only. -/
theorem selection_materialization (s : AppState) (sr sc er ec : Nat)
    (hact : s.text_selection.is_active = true)
    (hok : s.content_ok = true)
    (hnorm : normalize_selection s.text_selection = (sr, sc, er, ec))
    (hle : sr ≤ er)
    (her : er < s.content.length)
    (hnl : ∀ l ∈ s.content, ('\n') ∉ l.toList) :
    selected_chars s.content sr sc er ec =
      joinWithNewline (specSlices s.content sr sc er ec (er + 1 - sr) sr) ∧
    (selected_chars s.content sr sc er ec).count '\n' = er - sr ∧
    (isBlank (selected_chars s.content sr sc er ec) = true →
      copy_selected_text ClipboardOutcome.ok s =
        Except.ok { s with text_selection :=
          { s.text_selection with is_active := false } }) ∧
    (¬ isBlank (selected_chars s.content sr sc er ec) = true →
      copy_selected_text ClipboardOutcome.ok s =
        Except.ok { s with
          clipboard := some (String.mk (selected_chars s.content sr sc er ec)),
          text_selection := { s.text_selection with is_active := false } }) := by
  refine ⟨?_, ?_, ?_, ?_⟩
  · exact copyRows_eq_join s.content sr sc er ec her (er + 1 - sr) sr
      (by omega) hle
  · have h := copyRows_count s.content sr sc er ec her hnl (er + 1 - sr) sr
      (by omega)
    exact h
  · intro hb
    simp [copy_selected_text, hact, hok, hnorm, hb]
  · intro hb
    rw [Bool.not_eq_true] at hb
    simp [copy_selected_text, hact, hok, hnorm, hb]

/-- Witness for C5 on the concrete two-row selection state. -/
theorem selection_materialization_witness :
    selected_chars sSel.content 0 0 1 1 =
      joinWithNewline (specSlices sSel.content 0 0 1 1 (1 + 1 - 0) 0) ∧
    (selected_chars sSel.content 0 0 1 1).count '\n' = 1 - 0 ∧
    (isBlank (selected_chars sSel.content 0 0 1 1) = true →
      copy_selected_text ClipboardOutcome.ok sSel =
        Except.ok { sSel with text_selection :=
          { sSel.text_selection with is_active := false } }) ∧
    (¬ isBlank (selected_chars sSel.content 0 0 1 1) = true →
      copy_selected_text ClipboardOutcome.ok sSel =
        Except.ok { sSel with
          clipboard := some (String.mk (selected_chars sSel.content 0 0 1 1)),
          text_selection := { sSel.text_selection with is_active := false } }) :=
  selection_materialization sSel 0 0 1 1 rfl rfl (by decide) (by decide)
    (by decide) (by decide)

/-! ## Scrollbar geometry (C8) -/

lemma floor_max_one (x : ℚ) : (⌊max x 1⌋).toNat = max 1 (⌊x⌋).toNat := by
  rcases le_total (1 : ℚ) x with h1 | h1
  · rw [max_eq_left h1]
    have h2 : (1 : ℤ) ≤ ⌊x⌋ := by
      rw [Int.le_floor]
      exact_mod_cast h1
    omega
  · rw [max_eq_right h1]
    have h2 : ⌊x⌋ ≤ 1 := by
      calc ⌊x⌋ ≤ ⌊(1 : ℚ)⌋ := Int.floor_mono h1
        _ = 1 := by norm_num
    rw [Int.floor_one]
    omega

lemma ratio_if_eq (off m : Nat) :
    (if ((m : Nat) : ℚ) > 0 then ((off : Nat) : ℚ) / ((m : Nat) : ℚ) else 0) =
      ((off : Nat) : ℚ) / ((m : Nat) : ℚ) := by
  split_ifs with h
  · rfl
  · have hm : ((m : Nat) : ℚ) = 0 :=
      le_antisymm (not_lt.mp h) (by positivity)
    rw [hm, div_zero]

lemma scrollbar_geometry_eq (s : AppState) (track : Nat)
    (h1 : s.total_lines > s.areaHeight - 2) (h2 : 3 ≤ track) :
    scrollbar_geometry s track =
      some (spec_thumb_top_floor s.scroll_offset
          (s.total_lines - (s.areaHeight - 2)) track
          (spec_thumb_size_floor (s.areaHeight - 2) s.total_lines track),
        spec_thumb_size_floor (s.areaHeight - 2) s.total_lines track) := by
  simp only [scrollbar_geometry, spec_thumb_size_floor, spec_thumb_top_floor]
  rw [if_neg (by omega), if_pos h1]
  rw [ratio_if_eq, floor_max_one]

/-- C8 counterexample: with 4 total rows, 3 visible rows and a track of
height 10, the exact thumb ratio is 7.5; the code truncates to 7 while the
spec's `max(1, round(visible / total × track))` gives 8.  (The source
computes in `f32`; every value in this instance is exactly representable, so
the exact-rational model agrees with the `f32` computation here.) -/
theorem scrollbar_round_cex :
    scrollbar_geometry sBar 10 = some (0, 7) ∧
    spec_thumb_size_round 3 4 10 = 8 ∧ (7 : Nat) ≠ 8 := by
  refine ⟨?_, ?_, by decide⟩
  · rw [scrollbar_geometry_eq sBar 10 (by decide) (by decide)]
    norm_num [sBar, initialState, spec_thumb_size_floor, spec_thumb_top_floor]
    rfl
  · norm_num [spec_thumb_size_round]
    rfl

/-- C8 amended: the scrollbar is rendered only when `total_lines >
visible_rows` (and the track is at least 3 cells tall), and its geometry
uses truncation, not rounding: thumb height
`max(1, floor(visible_rows / total_lines × track_height))` and thumb top
`floor(offset / max_offset × (track_height − thumb_height))`. -/
theorem scrollbar_geometry_floor (s : AppState) (track : Nat) :
    ((scrollbar_geometry s track).isSome = true →
      s.total_lines > s.areaHeight - 2 ∧ 3 ≤ track) ∧
    (s.total_lines > s.areaHeight - 2 → 3 ≤ track →
      scrollbar_geometry s track =
        some (spec_thumb_top_floor s.scroll_offset
            (s.total_lines - (s.areaHeight - 2)) track
            (spec_thumb_size_floor (s.areaHeight - 2) s.total_lines track),
          spec_thumb_size_floor (s.areaHeight - 2) s.total_lines track)) := by
  constructor
  · intro h
    by_cases h1 : track < 3
    · simp [scrollbar_geometry, h1] at h
    · by_cases h2 : s.total_lines > s.areaHeight - 2
      · exact ⟨h2, by omega⟩
      · simp [scrollbar_geometry, h1, h2] at h
  · intro h1 h2
    exact scrollbar_geometry_eq s track h1 h2

/-- Witness for the amended C8 at the concrete state and a track of 10. -/
theorem scrollbar_geometry_floor_witness :
    scrollbar_geometry sBar 10 =
      some (spec_thumb_top_floor sBar.scroll_offset
          (sBar.total_lines - (sBar.areaHeight - 2)) 10
          (spec_thumb_size_floor (sBar.areaHeight - 2) sBar.total_lines 10),
        spec_thumb_size_floor (sBar.areaHeight - 2) sBar.total_lines 10) :=
  (scrollbar_geometry_floor sBar 10).2 (by decide) (by decide)

/-! ## Clipboard failure (C9) -/

/-- C9: when the selection is active, the snapshot is readable and the
clipboard environment fails (either construction or `set_text`),
`copy_selected_text` still returns success and produces exactly the state of
a successful copy except that the clipboard content is untouched; in
particular the selection is cleared. -/
theorem clipboard_failure_swallowed (s : AppState) (clip : ClipboardOutcome)
    (hact : s.text_selection.is_active = true)
    (hok : s.content_ok = true)
    (hfail : clip ≠ ClipboardOutcome.ok) :
    copy_selected_text clip s =
      Except.ok { copyState ClipboardOutcome.ok s with clipboard := s.clipboard } ∧
    (copyState clip s).text_selection.is_active = false := by
  by_cases hb : isBlank (selected_chars s.content
      (normalize_selection s.text_selection).1
      (normalize_selection s.text_selection).2.1
      (normalize_selection s.text_selection).2.2.1
      (normalize_selection s.text_selection).2.2.2) = true
  · constructor
    · simp [copy_selected_text, copyState, Except.toOption, hact, hok, hb, hfail]
    · simp [copyState, copy_selected_text, Except.toOption, hact, hok, hb, hfail]
  · rw [Bool.not_eq_true] at hb
    constructor
    · simp [copy_selected_text, copyState, Except.toOption, hact, hok, hb, hfail]
    · simp [copyState, copy_selected_text, Except.toOption, hact, hok, hb, hfail]

/-- Witness for C9: clipboard construction fails on the concrete selection
state. -/
theorem clipboard_failure_swallowed_witness :
    copy_selected_text ClipboardOutcome.newFails sSel =
      Except.ok { copyState ClipboardOutcome.ok sSel with
        clipboard := sSel.clipboard } ∧
    (copyState ClipboardOutcome.newFails sSel).text_selection.is_active = false :=
  clipboard_failure_swallowed sSel ClipboardOutcome.newFails rfl rfl (by decide)

end RustTerminal
